import Mathlib

/-
Verification of the sisqo repository against its specification.

Part 1 embeds `src/sisqo/configuration.py` (the indentation-driven
configuration parser and its serializer).  Part 2 embeds the pure logic of
`src/sisqo/ssh.py` (prompt classification, connection-state assertions and
the read/write state machine).  Python strings are modelled as `List Char`;
the transport and the terminal emulator, which the spec names as external
collaborators, are modelled as a scripted event list and an append-only
line grid.
-/

/- ## Shared string helpers (Python str semantics) -/

abbrev Str := List Char

/-- Whitespace set of Python `str.strip` (ASCII subset). -/
def isPyWS (c : Char) : Bool :=
  c == ' ' || c == '\t' || c == '\n' || c == '\r' || c == '\x0b' || c == '\x0c'

/-- Python `str.lstrip()`. -/
def pyLstrip (s : Str) : Str := s.dropWhile isPyWS

/-- Python `str.rstrip()`. -/
def pyRstrip (s : Str) : Str := (s.reverse.dropWhile isPyWS).reverse

/-- Python `str.strip()`. -/
def pyStrip (s : Str) : Str := pyRstrip (pyLstrip s)

/-- Python `re.split(r'\r?\n', s)`: a separator is `\r\n` or a lone `\n`;
a `\r` not followed by `\n` stays inside its line. -/
def splitLines : Str → List Str
  | [] => [[]]
  | '\r' :: '\n' :: rest => [] :: splitLines rest
  | '\n' :: rest => [] :: splitLines rest
  | c :: rest =>
    match splitLines rest with
    | [] => [[c]]
    | l :: ls => (c :: l) :: ls

/-- Python `line.startswith('!')`. -/
def startsBang : Str → Bool
  | '!' :: _ => true
  | _ => false

/- ## configuration.py: class Line -/

/-- Embeds `Line` of configuration.py: lineNumber, indent, value and the
ordered children.  The Python `parent` back-reference is only used to
compute `depth`; in this embedding depth is the recursion argument of
`flattenLine`, which coincides with the parent-chain length in every tree
the parser builds. -/
structure Line where
  lineNumber : Option Nat
  indent : Str
  value : Str
  children : List Line
deriving Repr

/-- Embeds `Line.__init__`'s `int(lineNumber) if lineNumber else None`:
the Python truthiness test maps the line number 0 to `None`. -/
def mkLineNumber (i : Nat) : Option Nat := if i = 0 then none else some i

/-- Two spaces per depth: `('  ' * depth)` of `Line._flatten`. -/
def dupIndent (d : Nat) : Str := List.replicate (2 * d) ' '

mutual

/-- Embeds `Line._flatten`: the node's own rendered line followed by its
children, a child with children expanded recursively and a childless child
rendered as a single leaf line. -/
def flattenLine : Nat → Line → List Str
  | d, ⟨_, _, v, cs⟩ => (dupIndent d ++ v) :: flattenChildren (d + 1) cs

/-- The `for child in self.children` loop body of `Line._flatten`. -/
def flattenChildren : Nat → List Line → List Str
  | _, [] => []
  | d, c :: cs =>
    (if c.children.length > 0 then flattenLine d c
     else [dupIndent d ++ c.value]) ++ flattenChildren d cs

end

/-- Embeds `Configuration._flatten`: concatenation of `child._flatten()`
over the root list. -/
def flattenForest : List Line → List Str
  | [] => []
  | c :: cs => flattenLine 0 c ++ flattenForest cs

/- ## configuration.py: Configuration._parse / _parseLine -/

/-- A parse error escaping `Configuration.__init__`. -/
inductive ParseErr where
  /-- The `raise Exception('Improperly aligned indentation')` of
  `_parseLine`. -/
  | structural
  /-- The uncaught `IndexError` raised by `self._parserStack[-1]` when the
  pop loop has emptied the stack. -/
  | indexError
deriving Repr, DecidableEq

/-- A node still on `_parserStack`: its children list is the list of
already-completed child subtrees.  In Python the children list is filled
in place; here a finished subtree is attached when its entry is popped,
which yields the same forest. -/
structure Pending where
  lineNumber : Option Nat
  indent : Str
  value : Str
  children : List Line
deriving Repr

/-- The completed node of a popped stack entry. -/
def Pending.finalize (p : Pending) : Line :=
  ⟨p.lineNumber, p.indent, p.value, p.children⟩

/-- Parser state: `self._parserStack` (head = top of stack) and
`self._root`. -/
structure PState where
  stack : List Pending
  roots : List Line
deriving Repr

/-- One `self._parserStack.pop()`: the popped entry's finished subtree is
attached to the new top's children (in Python this attachment already
happened by mutation at creation time), or becomes a completed root when
the stack empties. -/
def popOnce : List Pending → List Line → List Pending × List Line
  | [], r => ([], r)
  | [t], r => ([], r ++ [t.finalize])
  | t :: p :: rest, r =>
    (⟨p.lineNumber, p.indent, p.value, p.children ++ [t.finalize]⟩ :: rest, r)

/-- Embeds the `for _ in range(len(self._parserStack))` pop loop of
`_parseLine` (entered when the new line's indentation is smaller than the
top's): pop unconditionally, then inspect `self._parserStack[-1]` — which
raises `IndexError` when the pop emptied the stack — stop on equal
indentation, raise the structural error when the new top's indentation is
still smaller, otherwise keep popping.  The first argument after the
indentation is the `range(len(self._parserStack))` iteration budget; if
the range were ever exhausted the loop would simply end (in fact every
iteration pops, so the budget never runs out before an exit). -/
def popLoop (ind : Nat) : Nat → List Pending → List Line → Except ParseErr PState
  | 0, l, roots => .ok ⟨l, roots⟩
  | fuel + 1, l, roots =>
    match l with
    | [] => .error .indexError
    | [_] => .error .indexError
    | t :: p :: rest =>
      let p' : Pending := ⟨p.lineNumber, p.indent, p.value, p.children ++ [t.finalize]⟩
      if ind = p.indent.length then .ok ⟨p' :: rest, roots⟩
      else if p.indent.length < ind then .error .structural
      else popLoop ind fuel (p' :: rest) roots

/-- The `if indentation has been reduced from the previous line` block of
`_parseLine`: enter the pop loop only when the stack is non-empty and the
new line's indentation is strictly smaller than the top's. -/
def popPhase (ind : Nat) (st : PState) : Except ParseErr PState :=
  match st.stack with
  | t :: _ =>
    if ind < t.indent.length then popLoop ind st.stack.length st.stack st.roots
    else .ok st
  | [] => .ok st

/-- The `if the current indentation matches the indentation of the child
at the top of the stack` block of `_parseLine`: pop the sibling. -/
def siblingPhase (ind : Nat) (st : PState) : PState :=
  match st.stack with
  | t :: _ =>
    if ind = t.indent.length then
      let pr := popOnce st.stack st.roots
      ⟨pr.1, pr.2⟩
    else st
  | [] => st

/-- Embeds `Configuration._parseLine`: indentation bookkeeping against the
parser stack, comment dropping, then node creation and attachment. -/
def parseLine (configLine : Str) (lineNumber : Nat) (st : PState) :
    Except ParseErr PState :=
  let indent := configLine.takeWhile (fun c => c == ' ')
  let value := pyStrip configLine
  match popPhase indent.length st with
  | .error e => .error e
  | .ok st1 =>
    let st2 := siblingPhase indent.length st1
    if startsBang (pyLstrip configLine) then .ok st2
    else .ok ⟨⟨mkLineNumber lineNumber, indent, value, []⟩ :: st2.stack, st2.roots⟩

/-- The `for i, line in enumerate(config)` loop of `Configuration._parse`. -/
def parseLines : List Str → Nat → PState → Except ParseErr PState
  | [], _, st => .ok st
  | l :: rest, i, st =>
    match parseLine l i st with
    | .error e => .error e
    | .ok st' => parseLines rest (i + 1) st'

/-- Embeds the `skip lines until the first comment` loop of `_parse`:
`config = config[i:]` at the first line that starts with `'!'`, unchanged
when no such line exists. -/
def skipToComment (ls : List Str) : List Str :=
  if ls.any startsBang then ls.dropWhile (fun l => !startsBang l) else ls

/-- Realizes the final forest from the end-of-input parser state.  In
Python every node was already attached by mutation; here the remaining
stack entries are folded into their parents bottom-up (the budget is the
stack length, enough to drain it). -/
def collapseAll : Nat → List Pending → List Line → List Line
  | 0, _, r => r
  | fuel + 1, l, r =>
    match l with
    | [] => r
    | _ :: _ =>
      let pr := popOnce l r
      collapseAll fuel pr.1 pr.2

/-- Embeds `Configuration.__init__` / `Configuration._parse`: split on
`\r?\n`, drop blank lines, skip to the first `'!'` line, then parse the
remaining lines in order (an empty configString yields an empty root
list, as in Python). -/
def parseConfig (configString : Str) : Except ParseErr (List Line) :=
  let config := splitLines configString
  let config := config.filter (fun l => !(pyStrip l).isEmpty)
  let config := skipToComment config
  match parseLines config 0 ⟨[], []⟩ with
  | .error e => .error e
  | .ok st => .ok (collapseAll st.stack.length st.stack st.roots)

/- ## Value sequences and pre-order views used by the round-trip claim -/

mutual

/-- Pre-order value sequence of one node. -/
def lineVals : Line → List Str
  | ⟨_, _, v, cs⟩ => v :: forestVals cs

/-- Pre-order value sequence of a forest. -/
def forestVals : List Line → List Str
  | [] => []
  | c :: cs => lineVals c ++ forestVals cs

end

mutual

/-- Pre-order traversal of one node paired with its depth. -/
def preorderD : Nat → Line → List (Nat × Str)
  | d, ⟨_, _, v, cs⟩ => (d, v) :: preorderDForest (d + 1) cs

/-- Pre-order traversal of a forest paired with depths. -/
def preorderDForest : Nat → List Line → List (Nat × Str)
  | _, [] => []
  | d, c :: cs => preorderD d c ++ preorderDForest d cs

end

/-- Pre-order of the root forest with depths, starting at depth 0. -/
def preorderForest (f : List Line) : List (Nat × Str) := preorderDForest 0 f

/-- Value sequence contributed by the pending stack, bottom-up. -/
def stackVals : List Pending → List Str
  | [] => []
  | t :: rest => stackVals rest ++ (t.value :: forestVals t.children)

/-- Value sequence realized by a parser state. -/
def stateVals (st : PState) : List Str := forestVals st.roots ++ stackVals st.stack

/-- Root values of a parse result (used by the concrete claims). -/
def parsedRootValues (t : Str) : Option (List Str) :=
  (parseConfig t).toOption.map (fun f => f.map Line.value)

/-- Root line numbers of a parse result. -/
def parsedRootLineNumbers (t : Str) : Option (List (Option Nat)) :=
  (parseConfig t).toOption.map (fun f => f.map Line.lineNumber)

/- ## Concrete inputs of the claims -/

/-- The spec's worked example input. -/
def exampleInput : Str :=
  "interface Gi0/1\n ip address 1.1.1.1 255.255.255.0\n!\nend".toList

/-- First line indented, second line at column zero: every stack entry has
larger indentation than the new line. -/
def dedentPastRoot : Str := "  a\nb".toList

/-- Indentation widths 0, 2, 1. -/
def misalignedInput : Str := "a\n  b\n c".toList

/-- Two root lines with no comment or blank line. -/
def twoLineInput : Str := "a\nb".toList

/- ## ssh.py: onConnectionPrompt (default prompt-classification strategy) -/

/-- Python `str.lower()` (ASCII range; the prompts in scope are ASCII). -/
def lowerStr (s : Str) : Str := s.map Char.toLower

/-- Whether `needle` is a prefix of `hay`. -/
def startsWithStr : Str → Str → Bool
  | [], _ => true
  | _, [] => false
  | a :: as, b :: bs => a == b && startsWithStr as bs

/-- Python `needle in hay` substring containment. -/
def containsStr (needle : Str) : Str → Bool
  | [] => needle.isEmpty
  | h :: t => startsWithStr needle (h :: t) || containsStr needle t

/-- Splits a string at `\n` (the line structure that `$` sees under
`re.MULTILINE`). -/
def splitNL : Str → List Str
  | [] => [[]]
  | '\n' :: rest => [] :: splitNL rest
  | c :: rest =>
    match splitNL rest with
    | [] => [[c]]
    | l :: ls => (c :: l) :: ls

/-- The literal `key '` of the pattern `key \'(.+)\':\s*$`. -/
def keyQuote : Str := "key '".toList

/-- Whether a suffix completes the pattern: `':` followed by whitespace up
to the end of the line. -/
def matchEnd (s : Str) : Bool :=
  match s with
  | '\'' :: ':' :: rest => rest.all isPyWS
  | _ => false

/-- Greedy capture of `(.+)` in `key \'(.+)\':\s*$`: the longest nonempty
prefix whose remainder completes the pattern. -/
def greedyCapture : Str → Option Str
  | [] => none
  | c :: t =>
    match greedyCapture t with
    | some cap => some (c :: cap)
    | none => if matchEnd t then some [c] else none

/-- Leftmost match of the key pattern inside one line, with regex-style
backtracking over the start position. -/
def keyFromLine : Str → Option Str
  | [] => none
  | c :: t =>
    if startsWithStr keyQuote (c :: t) then
      match greedyCapture ((c :: t).drop keyQuote.length) with
      | some cap => some cap
      | none => keyFromLine t
    else keyFromLine t

/-- Embeds `re.findall(r'key \'(.+)\':\s*$', prompt, IGNORECASE|MULTILINE)`
on an already-lowercased prompt: one leftmost greedy match per line (every
match ends at a line end, so lines are independent). -/
def findKeys (prompt : Str) : List Str := (splitNL prompt).filterMap keyFromLine

/-- The mutable `state` dict threaded through `onConnectionPrompt`:
`password`, `passphrase`, `triedPassword` and the `triedKeys` dict
(modelled as an association list in insertion order). -/
structure AuthState where
  password : Option Str
  passphrase : Option Str
  triedPassword : Nat
  triedKeys : List (Str × Nat)
deriving Repr

/-- `state['triedKeys'].setdefault(key, 0)`. -/
def setdefault0 (m : List (Str × Nat)) (k : Str) : List (Str × Nat) :=
  if (m.find? (fun e => e.1 == k)).isSome then m else m ++ [(k, 0)]

/-- `state['triedKeys'][key]` after the `setdefault`. -/
def getCount (m : List (Str × Nat)) (k : Str) : Nat :=
  ((m.find? (fun e => e.1 == k)).map Prod.snd).getD 0

/-- `state['triedKeys'][key] += 1`. -/
def bumpCount (m : List (Str × Nat)) (k : Str) : List (Str × Nat) :=
  m.map (fun e => if e.1 == k then (e.1, e.2 + 1) else e)

/-- The substring `'enter passphrase for key'`. -/
def passphraseNeedle : Str := "enter passphrase for key".toList

/-- The substring `'password:'`. -/
def passwordNeedle : Str := "password:".toList

/-- Embeds `onConnectionPrompt` of ssh.py: lowercase the prompt, classify
it as a passphrase prompt or a password prompt, refuse after more than two
prior attempts of that kind, otherwise count the attempt, zero the other
kind's counters, and answer with the stored credential. -/
def onConnectionPrompt (prompt : Str) (st : AuthState) : Option Str × AuthState :=
  let prompt := lowerStr prompt
  -- `state.setdefault('triedPassword', 0)` and `.setdefault('triedKeys', {})`
  -- are identities here: the structure always carries both fields.
  if containsStr passphraseNeedle prompt then
    let keys := findKeys prompt
    -- `if key is None or len(key) != 1: key = '???'`
    let key := if keys.length == 1 then keys.headD [] else "???".toList
    let st := { st with triedKeys := setdefault0 st.triedKeys key }
    if 2 < getCount st.triedKeys key then
      (none, st)
    else
      let st := { st with triedKeys := bumpCount st.triedKeys key, triedPassword := 0 }
      (st.passphrase, st)
  else if containsStr passwordNeedle prompt then
    if 2 < st.triedPassword then
      (none, st)
    else
      let st := { st with triedPassword := st.triedPassword + 1, triedKeys := [] }
      (st.password, st)
  else (none, st)

/-- Whether a prompt takes the passphrase branch of `onConnectionPrompt`. -/
def passphraseBranch (p : Str) : Bool := containsStr passphraseNeedle (lowerStr p)

/-- Whether a prompt takes the password branch of `onConnectionPrompt`. -/
def passwordBranch (p : Str) : Bool :=
  !passphraseBranch p && containsStr passwordNeedle (lowerStr p)

/-- The key that scopes the per-key counter for a passphrase prompt. -/
def promptKey (p : Str) : Str :=
  let keys := findKeys (lowerStr p)
  if keys.length == 1 then keys.headD [] else "???".toList

/- ## ssh.py: session state, assertions and the read/write engine -/

/-- The error taxonomy of ssh.py, together with the two uncaught Python
runtime errors the engine can raise. -/
inductive SSHErr where
  | notConnected
  | notAuthenticated
  | alreadyAuthenticated
  /-- `TypeError` from `b'\r' in recvd` when `_recv` returned `None`
  inside the echo-consumption loop of `_write`. -/
  | typeError
  /-- `EOFError` escaping `_recv` outside the `try` of `_read`. -/
  | eofError
deriving Repr, DecidableEq

/-- Session state of an `SSH` object: `pty` is `none` after disconnect and
`some alive` while a pty exists (`alive` is `isalive()`); plus the
`_authenticated` and `_readSinceWrite` flags.  The terminal state is not
carried here because every `_read` resets it before use. -/
structure SessState where
  pty : Option Bool
  authenticated : Bool
  readSinceWrite : Bool
deriving Repr, DecidableEq

/-- Embeds `SSH._assertConnectionState`: `connected` is checked first,
then `authenticated` (Python's truthy `if authenticated` /
`elif authenticated == False`). -/
def assertConnectionState (st : SessState) (connected : Bool)
    (authenticated : Option Bool) : Except SSHErr Unit :=
  match (match connected, st.pty with
         | true, none => Except.error SSHErr.notConnected
         | true, some alive =>
           if !alive then Except.error SSHErr.notConnected else Except.ok ()
         | false, _ => Except.ok ()) with
  | .error e => .error e
  | .ok _ =>
    match authenticated with
    | some true =>
      if !st.authenticated then .error .notAuthenticated else .ok ()
    | some false =>
      if st.authenticated then .error .alreadyAuthenticated else .ok ()
    | none => .ok ()

/-- Embeds `SSH.disconnect`: idempotent teardown. -/
def disconnectState (st : SessState) : SessState :=
  match st.pty with
  | none => st
  | some _ => ⟨none, false, false⟩

/-- The screen model (pyte, an external collaborator per the spec),
modelled as an append-only line grid: LF opens a new cursor line, CR is
absorbed, every other byte appends at the cursor.  Row-capacity growth is
invisible here because the grid is unbounded and nothing is ever
discarded. -/
structure Screen where
  done : List Str
  cur : Str
deriving Repr, DecidableEq

/-- `self._vt.reset()`. -/
def Screen.reset : Screen := ⟨[], []⟩

/-- `self._stream.feed(bytes)`. -/
def Screen.feed (scr : Screen) (b : Str) : Screen :=
  b.foldl
    (fun s c =>
      if c == '\n' then ⟨s.done ++ [s.cur], []⟩
      else if c == '\r' then s
      else ⟨s.done, s.cur ++ [c]⟩)
    scr

/-- All rendered lines from the top of the buffer through the cursor row,
each right-stripped: `[l.rstrip() for l in self._vt.display[0:cursor.y+1]]`. -/
def renderDisplay (scr : Screen) : List Str := (scr.done ++ [scr.cur]).map pyRstrip

/-- One scripted transport event, as observed through `SSH._recv`:
a data chunk, a would-block poll (`_recv` returns `None`), or
end-of-stream (`EOFError`). -/
inductive Ev where
  | data (b : Str)
  | block
  | eof
deriving Repr, DecidableEq

/-- Why the polling loop of `_read` stopped. -/
inductive ReadExit where
  | prompt
  | timeout
  | eof
  /-- Artifact of the shallow embedding: the fuel bound was reached.  The
  Python loop has no such bound (a stuck pagination banner loops
  forever). -/
  | fuelOut
deriving Repr, DecidableEq

/-- Embeds the `while True` polling loop of `SSH._read`.  Time is logical:
each poll costs one tick, a non-empty read re-arms the idle deadline to
`now + T`.  A data chunk is fed to the screen and the loop continues
without inspecting the screen (the `continue`); otherwise the trimmed
cursor line is matched against the prompt pattern (stop), then the more
pattern (send one space, continue — skipping the deadline check), then the
idle deadline is consulted.  Returns the exit reason, the screen, the sent
characters and the unconsumed script. -/
def readLoop (promptP moreP : Str → Bool) (T : Nat) :
    Nat → Nat → Nat → Screen → List Ev → Str → ReadExit × Screen × Str × List Ev
  | 0, _, _, scr, script, sent => (.fuelOut, scr, sent, script)
  | fuel + 1, now, deadline, scr, script, sent =>
    let now' := now + 1
    match script with
    | .eof :: rest => (.eof, scr, sent, rest)
    | .data b :: rest => readLoop promptP moreP T fuel now' (now' + T) (scr.feed b) rest sent
    | rest =>
      -- `_recv` returned `None`: `rest` is the script after the poll
      let rest := match rest with
        | .block :: r => r
        | r => r
      let line := pyStrip scr.cur
      if promptP line then (.prompt, scr, sent, rest)
      else if moreP line then
        readLoop promptP moreP T fuel now' deadline scr rest (sent ++ [' '])
      else if deadline < now' then (.timeout, scr, sent, rest)
      else readLoop promptP moreP T fuel now' deadline scr rest sent

/-- Embeds `SSH._read`: assert a live connection, reset the screen, run
the polling loop, render all lines through the cursor row (dropping
prompt-matching lines when `stripPrompt`), mark `readSinceWrite`, and tear
the session down when the loop saw end-of-stream — after the rendered
result has been built.  Returns the result (or the raised error), the new
session state, the sent characters and the unconsumed script. -/
def readInternal (promptP moreP : Str → Bool) (stripPrompt : Bool) (T fuel : Nat)
    (st : SessState) (script : List Ev) :
    Except SSHErr (List Str) × SessState × Str × List Ev :=
  match assertConnectionState st true none with
  | .error e => (.error e, st, [], script)
  | .ok _ =>
    match readLoop promptP moreP T fuel 0 T Screen.reset script [] with
    | (ex, scr', sent, rest) =>
      let vtlines := renderDisplay scr'
      let lines := vtlines.filter (fun l => !(stripPrompt && promptP l))
      let st1 : SessState := ⟨st.pty, st.authenticated, true⟩
      let st2 := if ex = ReadExit.eof then disconnectState st1 else st1
      (.ok lines, st2, sent, rest)

/-- Embeds the public `SSH.read`: the connected-and-authenticated
assertion, then `_read`. -/
def readOp (promptP moreP : Str → Bool) (stripPrompt : Bool) (T fuel : Nat)
    (st : SessState) (script : List Ev) :
    Except SSHErr (List Str) × SessState × Str × List Ev :=
  match assertConnectionState st true (some true) with
  | .error e => (.error e, st, [], script)
  | .ok _ => readInternal promptP moreP stripPrompt T fuel st script

/-- The `command.replace('?', '\x16?')` escaping of `_write`. -/
def escapeQuestion (cmd : Str) : Str :=
  cmd.foldr (fun c acc => if c == '?' then '\x16' :: '?' :: acc else c :: acc) []

/-- Embeds the echo-consumption loop of `_write`: drain as many bytes as
were sent, dropping `\r` before counting; a would-block poll crashes with
`TypeError` (`b'\r' in None`), end-of-stream raises `EOFError`. -/
def echoLoop (T : Nat) : Nat → Nat → Nat → Nat → List Ev → Except SSHErr Unit × List Ev
  | 0, _, _, _, script => (.ok (), script)
  | fuel + 1, remaining, now, deadline, script =>
    if remaining = 0 then (.ok (), script)
    else
      let now' := now + 1
      match script with
      | .eof :: rest => (.error .eofError, rest)
      | .data b :: rest =>
        let b' := b.filter (fun c => !(c == '\r'))
        echoLoop T fuel (remaining - b'.length) now' (now' + T) rest
      | .block :: rest => (.error .typeError, rest)
      | [] => (.error .typeError, [])

/-- Embeds `SSH._write`: assert a live connection, escape `?`, flush
pending output with an internal read when no read has happened since the
last write, clear `readSinceWrite`, terminate the command with a newline
(the preceding `command.rstrip('\r\n')` in the source discards its result
and is a no-op), send it, and optionally consume the echo. -/
def writeInternal (promptP moreP : Str → Bool) (T fuel : Nat) (cmd : Str)
    (consumeEcho : Bool) (st : SessState) (script : List Ev) :
    Except SSHErr Unit × SessState × Str × List Ev :=
  match assertConnectionState st true none with
  | .error e => (.error e, st, [], script)
  | .ok _ =>
    let cmd1 := escapeQuestion cmd
    match (if st.readSinceWrite then (.ok [], st, [], script)
           else readInternal promptP moreP false T fuel st script) with
    | (.error e, st', s, rest) => (.error e, st', s, rest)
    | (.ok _, st1, s1, script1) =>
      let st2 : SessState := ⟨st1.pty, st1.authenticated, false⟩
      let cmd2 := if cmd1.getLast? = some '\n' then cmd1 else cmd1 ++ ['\n']
      -- `self._send(command)` re-asserts a live connection before writing
      match assertConnectionState st2 true none with
      | .error e => (.error e, st2, s1, script1)
      | .ok _ =>
        let sent2 := s1 ++ cmd2
        if !consumeEcho then (.ok (), st2, sent2, script1)
        else
          match echoLoop T fuel cmd2.length 0 T script1 with
          | (.error e, rest) => (.error e, st2, sent2, rest)
          | (.ok _, rest) => (.ok (), st2, sent2, rest)

/-- Embeds the public `SSH.write`: the connected-and-authenticated
assertion, then `_write`. -/
def writeOp (promptP moreP : Str → Bool) (T fuel : Nat) (cmd : Str)
    (consumeEcho : Bool) (st : SessState) (script : List Ev) :
    Except SSHErr Unit × SessState × Str × List Ev :=
  match assertConnectionState st true (some true) with
  | .error e => (.error e, st, [], script)
  | .ok _ => writeInternal promptP moreP T fuel cmd consumeEcho st script

/-- Outcome of the precondition phase of `SSH.authenticate`. -/
inductive AuthPre where
  /-- The `except Exception: ... return False` path. -/
  | earlyFalse
  /-- The assertion passed; the negotiation loop runs. -/
  | proceed
deriving Repr, DecidableEq

/-- Embeds the precondition phase of `SSH.authenticate`: the
connected-and-not-authenticated assertion runs inside a `try` whose
handler logs and `return False`s, so no state-precondition error ever
escapes to the caller. -/
def authenticatePre (st : SessState) : Except SSHErr AuthPre :=
  match assertConnectionState st true (some false) with
  | .error _ => .ok .earlyFalse
  | .ok _ => .ok .proceed

/- ## Concrete instances used by witnesses -/

/-- A small well-formed configuration: widths 0, 1, 0. -/
def roundTripExample : Str := "a\n b\nc".toList

/-- Its parsed forest. -/
def roundTripForest : List Line := (parseConfig roundTripExample).toOption.getD []

/-- A pattern matching exactly one literal line. -/
def eqPat (s : Str) : Str → Bool := fun l => l == s

/-- A pattern matching nothing. -/
def falsePat : Str → Bool := fun _ => false

/- ## Lemmas about the parser's value sequence -/

theorem forestVals_append (a b : List Line) :
    forestVals (a ++ b) = forestVals a ++ forestVals b := by
  induction a with
  | nil => simp [forestVals]
  | cons c cs ih => simp [forestVals, ih]

theorem lineVals_finalize (t : Pending) :
    lineVals t.finalize = t.value :: forestVals t.children := by
  cases t
  rfl

/-- Folding the top of the stack into the entry below realizes the same
value sequence. -/
theorem stackVals_fold (t p : Pending) (rest : List Pending) :
    stackVals (⟨p.lineNumber, p.indent, p.value, p.children ++ [t.finalize]⟩ :: rest) =
      stackVals (t :: p :: rest) := by
  simp [stackVals, forestVals_append, forestVals, lineVals_finalize, List.append_assoc]

theorem popOnce_vals (l : List Pending) (r : List Line) :
    forestVals (popOnce l r).2 ++ stackVals (popOnce l r).1 =
      forestVals r ++ stackVals l := by
  match l with
  | [] => simp [popOnce]
  | [t] => simp [popOnce, stackVals, forestVals_append, forestVals, lineVals_finalize]
  | t :: p :: rest =>
    show forestVals r ++ stackVals (⟨p.lineNumber, p.indent, p.value,
        p.children ++ [t.finalize]⟩ :: rest) = _
    rw [stackVals_fold]

theorem popLoop_vals (ind : Nat) :
    ∀ (fuel : Nat) (l : List Pending) (r : List Line) (st' : PState),
      popLoop ind fuel l r = .ok st' →
      forestVals st'.roots ++ stackVals st'.stack = forestVals r ++ stackVals l := by
  intro fuel
  induction fuel with
  | zero =>
    intro l r st' h
    rw [popLoop] at h
    cases h
    rfl
  | succ n ih =>
    intro l r st' h
    match l with
    | [] => rw [popLoop.eq_def] at h; simp at h
    | [t] => rw [popLoop.eq_def] at h; simp at h
    | t :: p :: rest =>
      rw [popLoop.eq_def] at h
      simp only at h
      by_cases h1 : ind = p.indent.length
      · rw [if_pos h1] at h
        cases h
        rw [stackVals_fold]
      · rw [if_neg h1] at h
        by_cases h2 : p.indent.length < ind
        · rw [if_pos h2] at h
          cases h
        · rw [if_neg h2] at h
          have := ih _ r st' h
          rw [this, stackVals_fold]

theorem popOnce_length (l : List Pending) (r : List Line) :
    (popOnce l r).1.length ≤ l.length - 1 := by
  match l with
  | [] => simp [popOnce]
  | [t] => simp [popOnce]
  | t :: p :: rest => simp [popOnce]

theorem collapseAll_vals :
    ∀ (fuel : Nat) (l : List Pending) (r : List Line), l.length ≤ fuel →
      forestVals (collapseAll fuel l r) = forestVals r ++ stackVals l := by
  intro fuel
  induction fuel with
  | zero =>
    intro l r hl
    have : l = [] := List.length_eq_zero.mp (Nat.le_zero.mp hl)
    subst this
    simp [collapseAll, stackVals]
  | succ n ih =>
    intro l r hl
    match l with
    | [] => simp [collapseAll, stackVals]
    | x :: xs =>
      rw [show collapseAll (n + 1) (x :: xs) r =
            collapseAll n (popOnce (x :: xs) r).1 (popOnce (x :: xs) r).2 from rfl]
      have hlen : (popOnce (x :: xs) r).1.length ≤ n := by
        have := popOnce_length (x :: xs) r
        simp at this hl ⊢
        omega
      rw [ih _ _ hlen, popOnce_vals]

theorem popPhase_vals (ind : Nat) (st st' : PState)
    (h : popPhase ind st = .ok st') : stateVals st' = stateVals st := by
  unfold popPhase at h
  match hs : st.stack with
  | [] =>
    rw [hs] at h
    cases h
    rfl
  | t :: rest =>
    rw [hs] at h
    by_cases h1 : ind < t.indent.length
    · simp only [h1, if_true] at h
      have := popLoop_vals ind st.stack.length st.stack st.roots st' (by rw [hs]; exact h)
      unfold stateVals
      rw [this]
    · simp only [h1, if_false] at h
      cases h
      rfl

theorem siblingPhase_vals (ind : Nat) (st : PState) :
    stateVals (siblingPhase ind st) = stateVals st := by
  unfold siblingPhase
  match hs : st.stack with
  | [] => rfl
  | t :: rest =>
    by_cases h1 : ind = t.indent.length
    · simp only [h1, if_true]
      unfold stateVals
      have := popOnce_vals st.stack st.roots
      rw [hs] at this ⊢
      exact this
    · simp [h1]

theorem parseLine_vals (l : Str) (i : Nat) (st st' : PState)
    (hc : startsBang (pyLstrip l) = false)
    (h : parseLine l i st = .ok st') :
    stateVals st' = stateVals st ++ [pyStrip l] := by
  simp only [parseLine] at h
  match hp : popPhase (l.takeWhile (fun c => c == ' ')).length st with
  | .error e => rw [hp] at h; cases h
  | .ok st1 =>
    rw [hp] at h
    rw [hc] at h
    simp only [Bool.false_eq_true, if_false] at h
    cases h
    have h1 := popPhase_vals _ _ _ hp
    have h2 := siblingPhase_vals (l.takeWhile (fun c => c == ' ')).length st1
    unfold stateVals at h1 h2 ⊢
    simp only [stackVals, forestVals]
    rw [← List.append_assoc] at *
    rw [h2, h1]

theorem parseLines_vals (ls : List Str) :
    (∀ l ∈ ls, startsBang (pyLstrip l) = false) →
    ∀ (i : Nat) (st st' : PState), parseLines ls i st = .ok st' →
    stateVals st' = stateVals st ++ ls.map pyStrip := by
  induction ls with
  | nil =>
    intro _ i st st' h
    cases h
    simp
  | cons l rest ih =>
    intro hcs i st st' h
    unfold parseLines at h
    match hp : parseLine l i st with
    | .error e => rw [hp] at h; cases h
    | .ok st1 =>
      rw [hp] at h
      have hv1 := parseLine_vals l i st st1 (hcs l (by simp)) hp
      have hv2 := ih (fun x hx => hcs x (by simp [hx])) (i + 1) st1 st' h
      rw [hv2, hv1]
      simp

/- ## Preprocessing identities for well-formed input -/

theorem startsBang_of_lstrip (l : Str) (h : startsBang l = true) :
    startsBang (pyLstrip l) = true := by
  match l with
  | [] => simp [startsBang] at h
  | c :: t =>
    cases hc : c == '!' with
    | true =>
      have : c = '!' := by
        have := of_decide_eq_true (by simpa using hc)
        exact this
      subst this
      simp [pyLstrip, List.dropWhile, isPyWS, startsBang]
    | false =>
      exfalso
      revert h
      unfold startsBang
      match c, hc with
      | '!', hc => simp at hc
      | _, _ => intro h; exact (by simp_all)

theorem skipToComment_id (ls : List Str)
    (h : ∀ l ∈ ls, startsBang (pyLstrip l) = false) : skipToComment ls = ls := by
  have hb : ls.any startsBang = false := by
    rw [List.any_eq_false]
    intro x hx hbx
    have := startsBang_of_lstrip x hbx
    rw [h x hx] at this
    cases this
  simp [skipToComment, hb]

/- ## Flattening agrees with the depth-annotated pre-order -/

mutual

theorem preorderD_snd (d : Nat) (t : Line) :
    (preorderD d t).map Prod.snd = lineVals t := by
  cases t with
  | mk ln ind v cs =>
    rw [preorderD, lineVals]
    simp only [List.map_cons]
    rw [preorderDForest_snd (d + 1) cs]

theorem preorderDForest_snd (d : Nat) (cs : List Line) :
    (preorderDForest d cs).map Prod.snd = forestVals cs := by
  cases cs with
  | nil => rfl
  | cons c rest =>
    rw [preorderDForest, forestVals]
    simp only [List.map_append]
    rw [preorderD_snd d c, preorderDForest_snd d rest]

end

mutual

theorem flattenLine_eq (d : Nat) (t : Line) :
    flattenLine d t = (preorderD d t).map (fun p => dupIndent p.1 ++ p.2) := by
  cases t with
  | mk ln ind v cs =>
    rw [flattenLine, preorderD]
    simp only [List.map_cons]
    rw [flattenChildren_eq (d + 1) cs]

theorem flattenChildren_eq (d : Nat) (cs : List Line) :
    flattenChildren d cs = (preorderDForest d cs).map (fun p => dupIndent p.1 ++ p.2) := by
  cases cs with
  | nil => rfl
  | cons c rest =>
    rw [flattenChildren, preorderDForest]
    simp only [List.map_append]
    rw [flattenChildren_eq d rest]
    congr 1
    cases hcs : c.children with
    | nil =>
      cases c with
      | mk ln ind v cs0 =>
        simp at hcs
        subst hcs
        simp [flattenLine, preorderD, preorderDForest, flattenChildren]
    | cons x xs =>
      have : c.children.length > 0 := by simp [hcs]
      simp only [this, if_true, gt_iff_lt]
      rw [flattenLine_eq d c]
      simp [hcs]

end

theorem flattenForest_eq (f : List Line) :
    flattenForest f = (preorderDForest 0 f).map (fun p => dupIndent p.1 ++ p.2) := by
  induction f with
  | nil => rfl
  | cons c cs ih =>
    rw [flattenForest, preorderDForest]
    simp only [List.map_append]
    rw [ih, flattenLine_eq 0 c]

/- ## Lemmas about the authentication counters and the read loop -/

theorem getCount_setdefault0 (m : List (Str × Nat)) (k : Str) :
    getCount (setdefault0 m k) k = getCount m k := by
  unfold setdefault0 getCount
  cases hf : (m.find? (fun e => e.1 == k)) with
  | some e => simp [hf]
  | none =>
    simp only [hf, Option.isSome_none, Bool.false_eq_true, if_false]
    rw [List.find?_append, hf]
    simp

/-- A successful prompt exit of the polling loop means the final screen's
trimmed cursor line matches the prompt pattern. -/
theorem readLoop_prompt_exit (promptP moreP : Str → Bool) (T : Nat) :
    ∀ (fuel now deadline : Nat) (scr : Screen) (script : List Ev) (sent : Str)
      (scr' : Screen) (sent' : Str) (rest : List Ev),
      readLoop promptP moreP T fuel now deadline scr script sent =
        (.prompt, scr', sent', rest) →
      promptP (pyStrip scr'.cur) = true := by
  intro fuel
  induction fuel with
  | zero =>
    intro now dl scr script sent scr' sent' rest h
    rw [readLoop.eq_def] at h
    simp at h
  | succ n ih =>
    intro now dl scr script sent scr' sent' rest h
    match script with
    | .eof :: r =>
      rw [readLoop.eq_def] at h
      simp at h
    | .data b :: r =>
      rw [readLoop.eq_def] at h
      simp only at h
      exact ih _ _ _ _ _ _ _ _ h
    | .block :: r =>
      rw [readLoop.eq_def] at h
      simp only at h
      by_cases h1 : promptP (pyStrip scr.cur)
      · rw [if_pos h1] at h
        simp only [Prod.mk.injEq] at h
        obtain ⟨-, h2, -, -⟩ := h
        subst h2
        exact h1
      · rw [if_neg h1] at h
        by_cases h2 : moreP (pyStrip scr.cur)
        · rw [if_pos h2] at h
          exact ih _ _ _ _ _ _ _ _ h
        · rw [if_neg h2] at h
          by_cases h3 : dl < now + 1
          · rw [if_pos h3] at h
            simp at h
          · rw [if_neg h3] at h
            exact ih _ _ _ _ _ _ _ _ h
    | [] =>
      rw [readLoop.eq_def] at h
      simp only at h
      by_cases h1 : promptP (pyStrip scr.cur)
      · rw [if_pos h1] at h
        simp only [Prod.mk.injEq] at h
        obtain ⟨-, h2, -, -⟩ := h
        subst h2
        exact h1
      · rw [if_neg h1] at h
        by_cases h2 : moreP (pyStrip scr.cur)
        · rw [if_pos h2] at h
          exact ih _ _ _ _ _ _ _ _ h
        · rw [if_neg h2] at h
          by_cases h3 : dl < now + 1
          · rw [if_pos h3] at h
            simp at h
          · rw [if_neg h3] at h
            exact ih _ _ _ _ _ _ _ _ h

/-- The polling loop only ever appends the single page-advance space to
the sent trace. -/
theorem readLoop_sent_spaces (promptP moreP : Str → Bool) (T : Nat) :
    ∀ (fuel now deadline : Nat) (scr : Screen) (script : List Ev) (sent : Str)
      (ex : ReadExit) (scr' : Screen) (sent' : Str) (rest : List Ev),
      readLoop promptP moreP T fuel now deadline scr script sent =
        (ex, scr', sent', rest) →
      (∀ c ∈ sent, c = ' ') → ∀ c ∈ sent', c = ' ' := by
  intro fuel
  induction fuel with
  | zero =>
    intro now dl scr script sent ex scr' sent' rest h hs
    rw [readLoop.eq_def] at h
    simp only [Prod.mk.injEq] at h
    obtain ⟨-, -, h3, -⟩ := h
    subst h3
    exact hs
  | succ n ih =>
    intro now dl scr script sent ex scr' sent' rest h hs
    match script with
    | .eof :: r =>
      rw [readLoop.eq_def] at h
      simp only at h
      simp only [Prod.mk.injEq] at h
      obtain ⟨-, -, h3, -⟩ := h
      subst h3
      exact hs
    | .data b :: r =>
      rw [readLoop.eq_def] at h
      simp only at h
      exact ih _ _ _ _ _ _ _ _ _ h hs
    | .block :: r =>
      rw [readLoop.eq_def] at h
      simp only at h
      by_cases h1 : promptP (pyStrip scr.cur)
      · rw [if_pos h1] at h
        simp only [Prod.mk.injEq] at h
        obtain ⟨-, -, h3, -⟩ := h
        subst h3
        exact hs
      · rw [if_neg h1] at h
        by_cases h2 : moreP (pyStrip scr.cur)
        · rw [if_pos h2] at h
          refine ih _ _ _ _ _ _ _ _ _ h ?_
          intro c hc
          rcases List.mem_append.mp hc with hc | hc
          · exact hs c hc
          · simpa using hc
        · rw [if_neg h2] at h
          by_cases h3 : dl < now + 1
          · rw [if_pos h3] at h
            simp only [Prod.mk.injEq] at h
            obtain ⟨-, -, h4, -⟩ := h
            subst h4
            exact hs
          · rw [if_neg h3] at h
            exact ih _ _ _ _ _ _ _ _ _ h hs
    | [] =>
      rw [readLoop.eq_def] at h
      simp only at h
      by_cases h1 : promptP (pyStrip scr.cur)
      · rw [if_pos h1] at h
        simp only [Prod.mk.injEq] at h
        obtain ⟨-, -, h3, -⟩ := h
        subst h3
        exact hs
      · rw [if_neg h1] at h
        by_cases h2 : moreP (pyStrip scr.cur)
        · rw [if_pos h2] at h
          refine ih _ _ _ _ _ _ _ _ _ h ?_
          intro c hc
          rcases List.mem_append.mp hc with hc | hc
          · exact hs c hc
          · simpa using hc
        · rw [if_neg h2] at h
          by_cases h3 : dl < now + 1
          · rw [if_pos h3] at h
            simp only [Prod.mk.injEq] at h
            obtain ⟨-, -, h4, -⟩ := h
            subst h4
            exact hs
          · rw [if_neg h3] at h
            exact ih _ _ _ _ _ _ _ _ _ h hs

/- ## Claim theorems -/

/-- Claim C1, counterexample: parsing the spec's example input does not
yield two roots; the banner-skip step drops every line before the first
`!` line, so the `interface Gi0/1` subtree is discarded and only the root
`end` remains. -/
theorem c1_example_counterexample :
    parsedRootValues exampleInput = some ["end".toList] ∧
    parsedRootValues exampleInput ≠
      some ["interface Gi0/1".toList, "end".toList] := by
  refine ⟨rfl, ?_⟩
  decide

/-- Claim C1, amended: parsing the example input yields exactly one root,
`end`, with no children; the lines preceding the first `!` line (the
interface line and its child) are discarded as banner noise and the `!`
line itself contributes no node. -/
theorem c1_example_amended :
    parseConfig exampleInput = .ok [⟨some 1, [], "end".toList, []⟩] := rfl

/-- Claim C2: contrary to the claim, a line whose indentation is strictly
smaller than that of every open ancestor is not attached as a new root:
the pop loop reads `self._parserStack[-1]` after emptying the stack and
parsing fails with an uncaught `IndexError`, not the documented structural
error. -/
theorem c2_dedent_past_root_crash :
    parseConfig dedentPastRoot = .error .indexError := rfl

/-- Claim C3: indentation widths 0, 2, 1 raise the structural parse error
(`Improperly aligned indentation`) and parsing stops without producing a
tree. -/
theorem c3_misaligned_raises_structural :
    parseConfig misalignedInput = .error .structural := rfl

/-- Claim C5: contrary to the claim, the very first configuration line
does not receive a valid line number: `int(lineNumber) if lineNumber else
None` maps the index 0 of the first parsed line to `None`, while the
second line gets 1. -/
theorem c5_first_line_number_is_none :
    parsedRootLineNumbers twoLineInput = some [none, some 1] := rfl

/-- Claim C4: for every configuration text whose lines are all non-blank
and none of which begins (after left-stripping) with the comment marker,
if parsing succeeds then serializing the parsed tree renders exactly the
depth-annotated pre-order of the forest — each node as two spaces per
depth followed by its value — and that pre-order's value sequence is the
trimmed input lines in their original order. -/
theorem c4_round_trip (text : Str)
    (hblank : ∀ l ∈ splitLines text, (pyStrip l).isEmpty = false)
    (hcomment : ∀ l ∈ splitLines text, startsBang (pyLstrip l) = false)
    (f : List Line) (hf : parseConfig text = .ok f) :
    flattenForest f = (preorderForest f).map (fun p => dupIndent p.1 ++ p.2) ∧
      (preorderForest f).map Prod.snd = (splitLines text).map pyStrip := by
  have hfilter : (splitLines text).filter (fun l => !(pyStrip l).isEmpty) = splitLines text :=
    List.filter_eq_self.mpr (fun a ha => by rw [hblank a ha]; rfl)
  have hskip : skipToComment (splitLines text) = splitLines text :=
    skipToComment_id _ hcomment
  simp only [parseConfig] at hf
  rw [hfilter, hskip] at hf
  match hp : parseLines (splitLines text) 0 ⟨[], []⟩ with
  | .error e => rw [hp] at hf; cases hf
  | .ok st =>
    rw [hp] at hf
    cases hf
    have hv := parseLines_vals (splitLines text) hcomment 0 ⟨[], []⟩ st hp
    have hc := collapseAll_vals st.stack.length st.stack st.roots le_rfl
    have hstart : stateVals ⟨[], []⟩ = [] := rfl
    rw [hstart, List.nil_append] at hv
    have hfv : forestVals (collapseAll st.stack.length st.stack st.roots) =
        (splitLines text).map pyStrip := by
      rw [hc]
      show stateVals st = _
      exact hv
    constructor
    · exact flattenForest_eq _
    · show (preorderDForest 0 _).map Prod.snd = _
      rw [preorderDForest_snd]
      exact hfv

/-- Claim C4, witness: the round-trip property evaluated on a concrete
well-formed three-line configuration. -/
theorem c4_round_trip_witness :
    ((splitLines roundTripExample).all (fun l => !(pyStrip l).isEmpty)) = true ∧
    ((splitLines roundTripExample).all (fun l => !startsBang (pyLstrip l))) = true ∧
    (flattenForest roundTripForest =
        (preorderForest roundTripForest).map (fun p => dupIndent p.1 ++ p.2) ∧
      (preorderForest roundTripForest).map Prod.snd =
        (splitLines roundTripExample).map pyStrip) :=
  ⟨by decide, by decide,
   c4_round_trip roundTripExample (by decide) (by decide) roundTripForest rfl⟩

/-- Claim C6: the default prompt classification refuses a credential kind
after three prior attempts (counter greater than 2 answers `none`), and
whenever it answers a prompt of one kind it zeroes the other kind's
counters — in particular the successful exchange leaves the other
counter at zero. -/
theorem c6_bounded_retries :
    (∀ (st : AuthState) (p : Str), passphraseBranch p = true →
        2 < getCount st.triedKeys (promptKey p) →
        (onConnectionPrompt p st).1 = none) ∧
    (∀ (st : AuthState) (p : Str), passwordBranch p = true →
        2 < st.triedPassword → (onConnectionPrompt p st).1 = none) ∧
    (∀ (st : AuthState) (p : Str), passphraseBranch p = true →
        getCount st.triedKeys (promptKey p) ≤ 2 →
        (onConnectionPrompt p st).2.triedPassword = 0) ∧
    (∀ (st : AuthState) (p : Str), passwordBranch p = true →
        st.triedPassword ≤ 2 → (onConnectionPrompt p st).2.triedKeys = []) := by
  refine ⟨?_, ?_, ?_, ?_⟩
  · intro st p hb hcnt
    simp only [passphraseBranch] at hb
    simp only [promptKey] at hcnt
    simp only [onConnectionPrompt]
    rw [if_pos hb, getCount_setdefault0, if_pos hcnt]
  · intro st p hb hcnt
    simp only [passwordBranch, Bool.and_eq_true, Bool.not_eq_true'] at hb
    obtain ⟨hb1, hb2⟩ := hb
    simp only [passphraseBranch] at hb1
    simp only [onConnectionPrompt]
    rw [if_neg (by simp [hb1]), if_pos hb2, if_pos hcnt]
  · intro st p hb hcnt
    simp only [passphraseBranch] at hb
    simp only [promptKey] at hcnt
    simp only [onConnectionPrompt]
    rw [if_pos hb, getCount_setdefault0, if_neg (Nat.not_lt.mpr hcnt)]
  · intro st p hb hcnt
    simp only [passwordBranch, Bool.and_eq_true, Bool.not_eq_true'] at hb
    obtain ⟨hb1, hb2⟩ := hb
    simp only [passphraseBranch] at hb1
    simp only [onConnectionPrompt]
    rw [if_neg (by simp [hb1]), if_pos hb2, if_neg (Nat.not_lt.mpr hcnt)]

/-- Claim C6, witness: the four counter behaviours at concrete prompts —
a fourth passphrase attempt for a known key is refused, a fourth password
attempt is refused, an answered passphrase prompt zeroes the password
counter, and an answered password prompt clears the per-key counters. -/
theorem c6_bounded_retries_witness :
    (onConnectionPrompt "Enter passphrase for key '/root/.ssh/id':".toList
        ⟨some "pw".toList, some "pp".toList, 1, [("/root/.ssh/id".toList, 3)]⟩).1 = none ∧
    (onConnectionPrompt "Password:".toList
        ⟨some "pw".toList, some "pp".toList, 3, []⟩).1 = none ∧
    (onConnectionPrompt "Enter passphrase for key '/root/.ssh/id':".toList
        ⟨some "pw".toList, some "pp".toList, 5, []⟩).2.triedPassword = 0 ∧
    (onConnectionPrompt "Password:".toList
        ⟨some "pw".toList, some "pp".toList, 2, [("k".toList, 7)]⟩).2.triedKeys = [] :=
  ⟨c6_bounded_retries.1 _ _ (by decide) (by decide),
   c6_bounded_retries.2.1 _ _ (by decide) (by decide),
   c6_bounded_retries.2.2.1 _ _ (by decide) (by decide),
   c6_bounded_retries.2.2.2 _ _ (by decide) (by decide)⟩

/-- A state assertion that requires a connection fails with NotConnected
whenever no live pty exists. -/
theorem assertConnectionState_dead (st : SessState) (auth : Option Bool)
    (h : st.pty ≠ some true) :
    assertConnectionState st true auth = .error .notConnected := by
  unfold assertConnectionState
  match hp : st.pty with
  | none => rfl
  | some true => exact absurd hp h
  | some false => rfl

/-- A state assertion that requires authentication fails with
NotAuthenticated on a live but unauthenticated session. -/
theorem assertConnectionState_unauth (st : SessState)
    (h1 : st.pty = some true) (h2 : st.authenticated = false) :
    assertConnectionState st true (some true) = .error .notAuthenticated := by
  unfold assertConnectionState
  rw [h1, h2]
  rfl

/-- Claim C8: `read` and `write` invoked without a live transport fail
with NotConnected, and invoked on a connected but unauthenticated session
fail with NotAuthenticated; in each case the session state is untouched,
nothing is sent, and the transport script is unconsumed (no I/O). -/
theorem c8_preconditions :
    (∀ (pP mP : Str → Bool) (sp : Bool) (T fuel : Nat) (st : SessState)
        (script : List Ev), st.pty ≠ some true →
        readOp pP mP sp T fuel st script = (.error .notConnected, st, [], script)) ∧
    (∀ (pP mP : Str → Bool) (sp : Bool) (T fuel : Nat) (st : SessState)
        (script : List Ev), st.pty = some true → st.authenticated = false →
        readOp pP mP sp T fuel st script = (.error .notAuthenticated, st, [], script)) ∧
    (∀ (pP mP : Str → Bool) (T fuel : Nat) (cmd : Str) (ce : Bool) (st : SessState)
        (script : List Ev), st.pty ≠ some true →
        writeOp pP mP T fuel cmd ce st script = (.error .notConnected, st, [], script)) ∧
    (∀ (pP mP : Str → Bool) (T fuel : Nat) (cmd : Str) (ce : Bool) (st : SessState)
        (script : List Ev), st.pty = some true → st.authenticated = false →
        writeOp pP mP T fuel cmd ce st script = (.error .notAuthenticated, st, [], script)) := by
  refine ⟨?_, ?_, ?_, ?_⟩
  · intro pP mP sp T fuel st script h
    unfold readOp
    rw [assertConnectionState_dead st (some true) h]
  · intro pP mP sp T fuel st script h1 h2
    unfold readOp
    rw [assertConnectionState_unauth st h1 h2]
  · intro pP mP T fuel cmd ce st script h
    unfold writeOp
    rw [assertConnectionState_dead st (some true) h]
  · intro pP mP T fuel cmd ce st script h1 h2
    unfold writeOp
    rw [assertConnectionState_unauth st h1 h2]

/-- Claim C8, witness: the four precondition failures at concrete states —
`read` and `write` on a torn-down or dead-pty session report NotConnected
and on a live unauthenticated session report NotAuthenticated, with the
state, sent trace and script returned unchanged. -/
theorem c8_preconditions_witness :
    readOp falsePat falsePat true 1 1 ⟨none, false, false⟩ [] =
      (.error .notConnected, ⟨none, false, false⟩, [], []) ∧
    readOp falsePat falsePat true 1 1 ⟨some true, false, false⟩ [.eof] =
      (.error .notAuthenticated, ⟨some true, false, false⟩, [], [.eof]) ∧
    writeOp falsePat falsePat 1 1 [] true ⟨some false, false, false⟩ [] =
      (.error .notConnected, ⟨some false, false, false⟩, [], []) ∧
    writeOp falsePat falsePat 1 1 [] true ⟨some true, false, true⟩ [.eof] =
      (.error .notAuthenticated, ⟨some true, false, true⟩, [], [.eof]) :=
  ⟨c8_preconditions.1 falsePat falsePat true 1 1 _ [] (by decide),
   c8_preconditions.2.1 falsePat falsePat true 1 1 _ [.eof] rfl rfl,
   c8_preconditions.2.2.1 falsePat falsePat 1 1 [] true _ [] (by decide),
   c8_preconditions.2.2.2 falsePat falsePat 1 1 [] true _ [.eof] rfl rfl⟩

/-- Claim C7, counterexample: on a live, already-authenticated session the
precondition phase of `authenticate` does not fail with the
AlreadyAuthenticated kind — the `try/except` swallows the assertion error
and the call takes the `return False` path. -/
theorem c7_counterexample :
    authenticatePre ⟨some true, true, false⟩ = .ok .earlyFalse ∧
    authenticatePre ⟨some true, true, false⟩ ≠ .error .alreadyAuthenticated := by
  refine ⟨rfl, ?_⟩
  intro h
  exact Except.noConfusion h

/-- Claim C7, amended: on every live, already-authenticated session the
internal state assertion does raise the AlreadyAuthenticated kind, but
`authenticate` catches it, logs, and returns False — so the caller
observes a False return value, not a distinct signaled error kind. -/
theorem c7_swallowed_assertion (st : SessState)
    (hlive : st.pty = some true) (hauth : st.authenticated = true) :
    assertConnectionState st true (some false) = .error .alreadyAuthenticated ∧
    authenticatePre st = .ok .earlyFalse := by
  have h1 : assertConnectionState st true (some false) = .error .alreadyAuthenticated := by
    unfold assertConnectionState
    rw [hlive, hauth]
    rfl
  refine ⟨h1, ?_⟩
  unfold authenticatePre
  rw [h1]

/-- Claim C7 amended, witness: the swallowed assertion at a concrete live
authenticated session state. -/
theorem c7_swallowed_assertion_witness :
    assertConnectionState ⟨some true, true, true⟩ true (some false) =
      .error .alreadyAuthenticated ∧
    authenticatePre ⟨some true, true, true⟩ = .ok .earlyFalse :=
  c7_swallowed_assertion ⟨some true, true, true⟩ rfl rfl

/-- Claim C9: the polling loop of `read` stops on a prompt only when the
final trimmed cursor line matches the prompt pattern; starting from an
empty sent trace it only ever sends page-advance spaces; and on the
scripted transport that emits a more banner, stalls, then emits the
prompt line, it sends exactly one space, keeps the accumulated screen
(the final grid is just the two chunks fed in order, nothing reset), and
exits on the prompt match. -/
theorem c9_pagination :
    (∀ (pP mP : Str → Bool) (T fuel now dl : Nat) (scr : Screen) (script : List Ev)
        (sent sent' : Str) (scr' : Screen) (rest : List Ev),
        readLoop pP mP T fuel now dl scr script sent = (.prompt, scr', sent', rest) →
        pP (pyStrip scr'.cur) = true) ∧
    (∀ (pP mP : Str → Bool) (T fuel now dl : Nat) (scr : Screen) (script : List Ev)
        (ex : ReadExit) (scr' : Screen) (sent' : Str) (rest : List Ev),
        readLoop pP mP T fuel now dl scr script [] = (ex, scr', sent', rest) →
        ∀ c ∈ sent', c = ' ') ∧
    (∀ (pP mP : Str → Bool) (T n now dl : Nat) (b1 b2 : Str),
        pP (pyStrip (Screen.reset.feed b1).cur) = false →
        mP (pyStrip (Screen.reset.feed b1).cur) = true →
        pP (pyStrip ((Screen.reset.feed b1).feed b2).cur) = true →
        readLoop pP mP T (n + 4) now dl Screen.reset [.data b1, .block, .data b2] [] =
          (.prompt, (Screen.reset.feed b1).feed b2, [' '], [])) := by
  refine ⟨?_, ?_, ?_⟩
  · intro pP mP T fuel now dl scr script sent sent' scr' rest h
    exact readLoop_prompt_exit pP mP T fuel now dl scr script sent scr' sent' rest h
  · intro pP mP T fuel now dl scr script ex scr' sent' rest h
    exact readLoop_sent_spaces pP mP T fuel now dl scr script [] ex scr' sent' rest h
      (by intro c hc; simp at hc)
  · intro pP mP T n now dl b1 b2 h1 h2 h3
    rw [show readLoop pP mP T (n + 4) now dl Screen.reset
          [.data b1, .block, .data b2] [] =
        readLoop pP mP T (n + 3) (now + 1) (now + 1 + T) (Screen.reset.feed b1)
          [.block, .data b2] [] from rfl]
    rw [readLoop.eq_def]
    simp only
    rw [if_neg (by rw [h1]; exact Bool.false_ne_true), if_pos h2]
    rw [show readLoop pP mP T (n + 2) (now + 1 + 1) (now + 1 + T)
          (Screen.reset.feed b1) [.data b2] ([] ++ [' ']) =
        readLoop pP mP T (n + 1) (now + 1 + 1 + 1) (now + 1 + 1 + 1 + T)
          ((Screen.reset.feed b1).feed b2) [] ([] ++ [' ']) from rfl]
    rw [readLoop.eq_def]
    simp only
    rw [if_pos h3]
    simp

/-- Claim C9, witness: the scripted more-banner scenario at concrete
patterns and chunks — exactly one space is sent and the loop exits on the
prompt line. -/
theorem c9_pagination_witness :
    eqPat "switch>".toList (pyStrip (Screen.reset.feed "--More--".toList).cur) = false ∧
    eqPat "--More--".toList (pyStrip (Screen.reset.feed "--More--".toList).cur) = true ∧
    eqPat "switch>".toList
      (pyStrip ((Screen.reset.feed "--More--".toList).feed "\nswitch>".toList).cur) = true ∧
    readLoop (eqPat "switch>".toList) (eqPat "--More--".toList) 5 (0 + 4) 0 5
        Screen.reset [.data "--More--".toList, .block, .data "\nswitch>".toList] [] =
      (.prompt, (Screen.reset.feed "--More--".toList).feed "\nswitch>".toList, [' '], []) :=
  ⟨by decide, by decide, by decide,
   c9_pagination.2.2 (eqPat "switch>".toList) (eqPat "--More--".toList) 5 0 0 5
     "--More--".toList "\nswitch>".toList (by decide) (by decide) (by decide)⟩

/-- Claim C10: when the polling loop ends with end-of-stream, `_read`
still returns (rather than raising) the text rendered from the screen as
it stood at end-of-stream — the partial output is kept — and only then is
the session state torn down (pty gone, flags cleared). -/
theorem c10_eof_partial_result (promptP moreP : Str → Bool) (stripPrompt : Bool)
    (T fuel : Nat) (st : SessState) (script : List Ev) (scr' : Screen)
    (sent : Str) (rest : List Ev)
    (hlive : st.pty = some true)
    (hloop : readLoop promptP moreP T fuel 0 T Screen.reset script [] =
      (.eof, scr', sent, rest)) :
    readInternal promptP moreP stripPrompt T fuel st script =
      (.ok ((renderDisplay scr').filter (fun l => !(stripPrompt && promptP l))),
        ⟨none, false, false⟩, sent, rest) := by
  unfold readInternal
  have ha : assertConnectionState st true none = .ok () := by
    unfold assertConnectionState
    rw [hlive]
    rfl
  rw [ha, hloop]
  simp [disconnectState, hlive]

/-- Claim C10, witness: a transport that delivers one chunk and then
end-of-stream — the internal read returns the rendered chunk and the
session ends torn down. -/
theorem c10_eof_partial_result_witness :
    (⟨some true, false, true⟩ : SessState).pty = some true ∧
    readLoop falsePat falsePat 3 2 0 3 Screen.reset [.data "abc".toList, .eof] [] =
      (.eof, Screen.reset.feed "abc".toList, [], []) ∧
    readInternal falsePat falsePat true 3 2 ⟨some true, false, true⟩
        [.data "abc".toList, .eof] =
      (.ok ((renderDisplay (Screen.reset.feed "abc".toList)).filter
          (fun l => !(true && falsePat l))), ⟨none, false, false⟩, [], []) :=
  ⟨rfl, by decide,
   c10_eof_partial_result falsePat falsePat true 3 2 ⟨some true, false, true⟩
     [.data "abc".toList, .eof] (Screen.reset.feed "abc".toList) [] [] rfl (by decide)⟩
